import Mathlib

/-!
Verification of the EV charging optimization repository.

The data model and operations below are shallow embeddings of the Python
sources: `Vehicle` and its methods come from `src/core/models/vehicle.py`,
`Scenario` from `src/core/entities/scenario.py`, the objective/constraint
evaluator from `EVChargingProblem._evaluate` and its helpers in
`src/services/optimization_service.py`, and the Pareto metrics engine from
`src/services/metrics_calculator.py`.

Python floats are modelled as exact rationals (`ℚ`); square roots (numpy's
`linalg.norm` and `std`) land in `ℝ`.  `ValueError`s raised by the
validation code are modelled with `Except Unit`.  Python's `float('inf')`
in `minimum_charging_power` is modelled with `WithTop ℚ`.
-/

namespace EVOpt

/-- Vehicle, from `src/core/models/vehicle.py` (`@dataclass Vehicle`).
Times are Python ints, powers and SoC fractions are floats. -/
structure Vehicle where
  battery_capacity : ℚ
  soc_initial : ℚ
  soc_target : ℚ
  arrival_time : ℤ
  departure_time : ℤ
  charging_power_min : ℚ
  charging_power_max : ℚ
deriving DecidableEq

instance : Inhabited Vehicle := ⟨⟨30, 0, 0, 0, 0, -6, 30⟩⟩

/-- `Vehicle._validate`, run by `__post_init__`: the checks in source order,
each raising `ValueError` (modelled as `Except.error ()`).  Note the source
validates `battery_capacity` but has no check on `charging_power_max` or
`charging_power_min`. -/
def Vehicle.validate (v : Vehicle) : Except Unit Vehicle :=
  if ¬(0 ≤ v.soc_initial ∧ v.soc_initial ≤ 1) then .error ()
  else if ¬(0 ≤ v.soc_target ∧ v.soc_target ≤ 1) then .error ()
  else if ¬(0 ≤ v.arrival_time ∧ v.arrival_time < 24) then .error ()
  else if ¬(0 ≤ v.departure_time ∧ v.departure_time < 24) then .error ()
  else if v.battery_capacity ≤ 0 then .error ()
  else .ok v

/-- Constructing a `Vehicle` runs `__post_init__`, hence `_validate`. -/
def Vehicle.construct (cap si st : ℚ) (arr dep : ℤ) (pmin pmax : ℚ) :
    Except Unit Vehicle :=
  Vehicle.validate ⟨cap, si, st, arr, dep, pmin, pmax⟩

/-- The conditions `Vehicle._validate` accepts, as a predicate. -/
def Vehicle.Valid (v : Vehicle) : Prop :=
  0 ≤ v.soc_initial ∧ v.soc_initial ≤ 1 ∧
  0 ≤ v.soc_target ∧ v.soc_target ≤ 1 ∧
  0 ≤ v.arrival_time ∧ v.arrival_time < 24 ∧
  0 ≤ v.departure_time ∧ v.departure_time < 24 ∧
  0 < v.battery_capacity

instance (v : Vehicle) : Decidable v.Valid := by
  unfold Vehicle.Valid; infer_instance

/-- `Vehicle.available_at`: same-day window `[arrival, departure)` when
`departure > arrival`, otherwise the overnight wrap. -/
def Vehicle.available_at (v : Vehicle) (hour : ℤ) : Bool :=
  if v.arrival_time < v.departure_time then
    decide (v.arrival_time ≤ hour ∧ hour < v.departure_time)
  else
    decide (v.arrival_time ≤ hour ∨ hour < v.departure_time)

/-- `Vehicle.energy_needed`: `(soc_target - soc_initial) * battery_capacity`. -/
def Vehicle.energy_needed (v : Vehicle) : ℚ :=
  (v.soc_target - v.soc_initial) * v.battery_capacity

/-- `Vehicle.hours_available`. -/
def Vehicle.hours_available (v : Vehicle) : ℤ :=
  if v.arrival_time < v.departure_time then v.departure_time - v.arrival_time
  else (24 - v.arrival_time) + v.departure_time

/-- `Vehicle.minimum_charging_power`: `float('inf')` when no hour is
available (modelled as `⊤`), else `energy_needed / hours`. -/
def Vehicle.minimum_charging_power (v : Vehicle) : WithTop ℚ :=
  if v.hours_available = 0 then ⊤
  else ((v.energy_needed / (v.hours_available : ℚ) : ℚ) : WithTop ℚ)

/-- Scenario, from `src/core/entities/scenario.py` (`@dataclass Scenario`). -/
structure Scenario where
  vehicles : List Vehicle
  price_profile : List ℚ
  site_max_power : ℚ
  time_horizon : ℕ
deriving DecidableEq

/-- `Scenario.__post_init__`: the three checks in source order. -/
def Scenario.validate (s : Scenario) : Except Unit Scenario :=
  if s.price_profile.length ≠ s.time_horizon then .error ()
  else if s.site_max_power ≤ 0 then .error ()
  else if s.vehicles.isEmpty then .error ()
  else .ok s

/-- Constructing a `Scenario` runs `__post_init__`. -/
def Scenario.construct (vs : List Vehicle) (prices : List ℚ) (site : ℚ)
    (T : ℕ) : Except Unit Scenario :=
  Scenario.validate ⟨vs, prices, site, T⟩

/-- `Scenario.is_feasible`: every vehicle's minimum average power within its
rated maximum.  The site power cap is not consulted. -/
def Scenario.is_feasible (s : Scenario) : Bool :=
  s.vehicles.all fun v =>
    !decide ((v.charging_power_max : WithTop ℚ) < v.minimum_charging_power)

/-- Vehicle at row `i` of the scenario (the row order of the numpy
matrices used by the evaluator). -/
def Scenario.vehicleAt (s : Scenario) (i : ℕ) : Vehicle :=
  s.vehicles.getD i default

/-! The evaluator `EVChargingProblem._evaluate`
(`src/services/optimization_service.py`).  A decision vector is reshaped to
an `n_vehicles × time_horizon` matrix, modelled as `x : ℕ → ℕ → ℚ`; the
availability mask is applied once and everything downstream reads the
masked matrix, as in the source. -/

/-- The boolean availability mask entry as the 0/1 factor it becomes under
numpy multiplication (`Scenario.get_availability_mask` and
`power_matrix * mask`). -/
def maskBit (v : Vehicle) (t : ℕ) : ℚ :=
  if v.available_at (t : ℤ) then 1 else 0

/-- `power_matrix = x.reshape(...) * mask`. -/
def masked (s : Scenario) (x : ℕ → ℕ → ℚ) : ℕ → ℕ → ℚ :=
  fun i t => x i t * maskBit (s.vehicleAt i) t

/-- One row of `_calculate_soc_profiles`: cumulative sum of
`power * dt / capacity` plus the initial SoC (`soc_profile[i, t]`,
cumulative sum being inclusive of index `t`). -/
def socAt (dt : ℚ) (v : Vehicle) (mp : ℕ → ℚ) (t : ℕ) : ℚ :=
  v.soc_initial + ∑ u ∈ Finset.range (t + 1), mp u * dt / v.battery_capacity

/-- Column sum of the masked matrix (`np.sum(power_matrix, axis=0)`). -/
def totalPower (s : Scenario) (M : ℕ → ℕ → ℚ) (t : ℕ) : ℚ :=
  ∑ i ∈ Finset.range s.vehicles.length, M i t

/-- `np.max` over a vector.  numpy raises on an empty vector; the `[]`
case below is a placeholder never relied on (the evaluator is only run
with `time_horizon ≥ 1`). -/
def npMax : List ℚ → ℚ
  | [] => 0
  | a :: l => l.foldl max a

/-- `_calculate_cost`: `np.sum(total_power * price_profile * dt)`. -/
def cost (s : Scenario) (dt : ℚ) (M : ℕ → ℕ → ℚ) : ℚ :=
  ∑ t ∈ Finset.range s.time_horizon,
    totalPower s M t * s.price_profile.getD t 0 * dt

/-- The horizon-clipped departure index
`min(int(departure_time), time_horizon - 1)` of `_calculate_dissatisfaction`. -/
def depIdx (T : ℕ) (v : Vehicle) : ℕ :=
  (min v.departure_time ((T : ℤ) - 1)).toNat

/-- A vehicle's SoC at its clipped departure index. -/
def finalSoc (dt : ℚ) (T : ℕ) (v : Vehicle) (mp : ℕ → ℚ) : ℚ :=
  socAt dt v mp (depIdx T v)

/-- `_calculate_dissatisfaction`: `np.sum(np.maximum(0, target - final))`. -/
def dissatisfaction (s : Scenario) (dt : ℚ) (M : ℕ → ℕ → ℚ) : ℚ :=
  ∑ i ∈ Finset.range s.vehicles.length,
    max 0 ((s.vehicleAt i).soc_target -
      finalSoc dt s.time_horizon (s.vehicleAt i) (M i))

/-- `_calculate_peak_power`: `np.max(np.abs(total_power))`. -/
def peakPower (s : Scenario) (M : ℕ → ℕ → ℚ) : ℚ :=
  npMax ((List.range s.time_horizon).map fun t => |totalPower s M t|)

/-- `_calculate_soc_violation`: accumulated SoC excursions below 0 and
above 1 over the whole profile. -/
def socViolation (s : Scenario) (dt : ℚ) (M : ℕ → ℕ → ℚ) : ℚ :=
  (∑ i ∈ Finset.range s.vehicles.length, ∑ t ∈ Finset.range s.time_horizon,
      max 0 (-(socAt dt (s.vehicleAt i) (M i) t))) +
  (∑ i ∈ Finset.range s.vehicles.length, ∑ t ∈ Finset.range s.time_horizon,
      max 0 (socAt dt (s.vehicleAt i) (M i) t - 1))

/-- `_calculate_power_violation`:
`np.max(np.maximum(0, np.abs(total_power) - site_max_power))`. -/
def powerViolation (s : Scenario) (M : ℕ → ℕ → ℚ) : ℚ :=
  npMax ((List.range s.time_horizon).map fun t =>
    max 0 (|totalPower s M t| - s.site_max_power))

/-- The five outputs of `_evaluate` (`out["F"]` and `out["G"]`). -/
structure EvalResult where
  cost : ℚ
  dissatisfaction : ℚ
  peak_power : ℚ
  soc_violation : ℚ
  power_violation : ℚ
deriving DecidableEq

/-- `_evaluate` on an already-masked matrix. -/
def evalMasked (s : Scenario) (dt : ℚ) (M : ℕ → ℕ → ℚ) : EvalResult :=
  ⟨cost s dt M, dissatisfaction s dt M, peakPower s M,
   socViolation s dt M, powerViolation s M⟩

/-- `_evaluate`: mask the raw decision matrix, then compute objectives and
constraint violations. -/
def evaluate (s : Scenario) (dt : ℚ) (x : ℕ → ℕ → ℚ) : EvalResult :=
  evalMasked s dt (masked s x)

/-! Helper predicates and fixtures. -/

/-- Whether construction returned normally (no `ValueError`). -/
def isOk : Except Unit α → Bool
  | .ok _ => true
  | .error _ => false

/-- For any vehicle passing `_validate`, the availability window is at
least one hour (a `departure = arrival` stay is the full 24 hours). -/
theorem hours_available_pos (v : Vehicle) (hval : v.Valid) :
    0 < v.hours_available := by
  obtain ⟨-, -, -, -, ha0, ha24, hd0, hd24, -⟩ := hval
  unfold Vehicle.hours_available
  split <;> omega

/-- For a validated vehicle the `float('inf')` branch of
`minimum_charging_power` is unreachable: the method returns the finite
division. -/
theorem minimum_charging_power_valid (v : Vehicle) (hval : v.Valid) :
    v.minimum_charging_power =
      ((v.energy_needed / (v.hours_available : ℚ) : ℚ) : WithTop ℚ) := by
  unfold Vehicle.minimum_charging_power
  rw [if_neg (by have := hours_available_pos v hval; omega)]

/-- The 0/1 mask factor is nonnegative. -/
theorem maskBit_nonneg (v : Vehicle) (t : ℕ) : 0 ≤ maskBit v t := by
  unfold maskBit; split <;> norm_num

/-- The vehicle at an in-range row index is one of the scenario's vehicles. -/
theorem vehicleAt_mem (s : Scenario) (i : ℕ) (hi : i < s.vehicles.length) :
    s.vehicleAt i ∈ s.vehicles := by
  unfold Scenario.vehicleAt
  rw [List.getD_eq_getElem?_getD, List.getElem?_eq_getElem hi]
  exact List.getElem_mem hi

/-- `np.max` of a vector of zeros is zero. -/
theorem npMax_replicate_zero (n : ℕ) : npMax (List.replicate n (0:ℚ)) = 0 := by
  cases n with
  | zero => rfl
  | succ m =>
    rw [List.replicate_succ]
    simp only [npMax]
    induction m with
    | zero => rfl
    | succ k ih => rw [List.replicate_succ, List.foldl_cons, max_self]; exact ih

/-- The single vehicle of the spec's concrete scenario: capacity 30 kWh,
SoC 0.2 → 0.8, arrival hour 6, departure hour 10. -/
def vC1 : Vehicle := ⟨30, 1/5, 4/5, 6, 10, -6, 30⟩

/-- The spec's concrete scenario: one vehicle, flat price 0.20/kWh over a
10-hour horizon (departure clipped to index 9), site cap 60 kW. -/
def sC1 : Scenario := ⟨[vC1], List.replicate 10 (1/5), 60, 10⟩

/-- Decision vector: 7.5 kW at hours 6–9, zero elsewhere. -/
def xC1 : ℕ → ℕ → ℚ := fun _ t => if 6 ≤ t ∧ t < 10 then 15/2 else 0

/-- Overnight vehicle: arrival 22, departure 6. -/
def vC8 : Vehicle := ⟨30, 1/5, 4/5, 22, 6, -6, 30⟩

/-- A valid vehicle with `departure_time = arrival_time` (24-hour stay). -/
def vC10 : Vehicle := ⟨30, 1/5, 4/5, 8, 8, -6, 30⟩

/-! Claim theorems. -/

/-- C1: on the concrete single-vehicle scenario (capacity 30 kWh, SoC
0.2 → 0.8, arrival 6, departure 10, dt = 1, flat price 0.20/kWh, site cap
60 kW), the decision vector with 7.5 kW at hours 6–9 and 0 elsewhere
evaluates to cost 6.0, dissatisfaction 0, peak power 7.5, power violation
0 and SoC violation 0.2 (the excess above 1.0 at the final step). -/
theorem c1_single_vehicle_evaluation :
    evaluate sC1 1 xC1 = ⟨6, 0, 15/2, 1/5, 0⟩ := by
  with_unfolding_all rfl

/-- C3 counterexample: `Vehicle._validate` has no check on
`charging_power_max`, so a vehicle with a non-positive maximum charging
power (here 0) is constructed without any validation error, contradicting
the claim that every such malformed input raises eagerly. -/
theorem c3_unchecked_power_accepted :
    Vehicle.construct 30 (1/2) (4/5) 8 18 (-6) 0 =
      .ok ⟨30, 1/2, 4/5, 8, 18, -6, 0⟩ := by
  with_unfolding_all rfl

/-- C3 (amended): construction raises a validation error exactly for:
SoC initial or target outside [0,1], arrival or departure hour outside
[0,24), non-positive battery capacity (at the vehicle), price-profile
length differing from the time horizon, non-positive site power cap, or an
empty vehicle list (at the scenario); `charging_power_max` is not
validated, and any input passing the listed checks constructs normally. -/
theorem c3_validation_characterization :
    (∀ cap si st : ℚ, ∀ arr dep : ℤ, ∀ pmin pmax : ℚ,
      isOk (Vehicle.construct cap si st arr dep pmin pmax) = true ↔
        (0 ≤ si ∧ si ≤ 1 ∧ 0 ≤ st ∧ st ≤ 1 ∧ 0 ≤ arr ∧ arr < 24 ∧
         0 ≤ dep ∧ dep < 24 ∧ 0 < cap)) ∧
    (∀ vs : List Vehicle, ∀ prices : List ℚ, ∀ site : ℚ, ∀ T : ℕ,
      isOk (Scenario.construct vs prices site T) = true ↔
        (prices.length = T ∧ 0 < site ∧ vs ≠ [])) := by
  constructor
  · intro cap si st arr dep pmin pmax
    simp only [Vehicle.construct, Vehicle.validate]
    split_ifs <;>
      simp only [isOk, Bool.false_eq_true, false_iff, true_iff] <;>
      rw [show ((0:ℚ) < cap) ↔ ¬(cap ≤ 0) from lt_iff_not_le] <;>
      tauto
  · intro vs prices site T
    simp only [Scenario.construct, Scenario.validate]
    split_ifs <;>
      simp only [isOk, Bool.false_eq_true, false_iff, true_iff] <;>
      rw [show ((0:ℚ) < site) ↔ ¬(site ≤ 0) from lt_iff_not_le,
          show (vs ≠ []) ↔ ¬(vs.isEmpty = true) by simp [List.isEmpty_iff]] <;>
      tauto

/-- C8: `available_at` is the half-open same-day window when
`departure > arrival` and the overnight wrap otherwise; concretely the
vehicle arriving at hour 22 and departing at hour 6 is available exactly
at hours 22, 23 and 0–5 of the day. -/
theorem c8_available_at_semantics :
    (∀ v : Vehicle, ∀ hour : ℤ, v.available_at hour = true ↔
      (if v.arrival_time < v.departure_time
       then v.arrival_time ≤ hour ∧ hour < v.departure_time
       else v.arrival_time ≤ hour ∨ hour < v.departure_time)) ∧
    (List.range 24).filter (fun h => vC8.available_at (h : ℤ)) =
      [0, 1, 2, 3, 4, 5, 22, 23] := by
  constructor
  · intro v hour
    unfold Vehicle.available_at
    split <;> simp_all
  · with_unfolding_all rfl

/-- C10: every vehicle passing construction validation has at least one
available hour; one with `departure_time = arrival_time` is a 24-hour stay
available at every hour; hence `minimum_charging_power` always takes the
finite division branch, never the infinite one. -/
theorem c10_hours_available_positive (v : Vehicle) (hval : v.Valid) :
    1 ≤ v.hours_available ∧
    (v.departure_time = v.arrival_time →
      v.hours_available = 24 ∧ ∀ hour : ℤ, v.available_at hour = true) ∧
    v.minimum_charging_power =
      ((v.energy_needed / (v.hours_available : ℚ) : ℚ) : WithTop ℚ) := by
  have hpos := hours_available_pos v hval
  refine ⟨hpos, fun hda => ?_, ?_⟩
  · constructor
    · unfold Vehicle.hours_available
      rw [if_neg (by omega)]
      omega
    · intro hour
      unfold Vehicle.available_at
      rw [if_neg (by omega)]
      simp [hda]
      omega
  · unfold Vehicle.minimum_charging_power
    rw [if_neg (by omega)]

/-- C4: for a scenario of validated vehicles, `is_feasible()` is true iff
every vehicle satisfies `energy_needed / hours_available ≤
charging_power_max` (hours computed with the overnight wrap), and the
site-wide power cap plays no role in the predicate. -/
theorem c4_is_feasible_iff (s : Scenario) (hval : ∀ v ∈ s.vehicles, v.Valid) :
    (s.is_feasible = true ↔
      ∀ v ∈ s.vehicles,
        v.energy_needed / (v.hours_available : ℚ) ≤ v.charging_power_max) ∧
    (∀ q : ℚ,
      (Scenario.mk s.vehicles s.price_profile q s.time_horizon).is_feasible
        = s.is_feasible) := by
  refine ⟨?_, fun q => rfl⟩
  rw [Scenario.is_feasible, List.all_eq_true]
  constructor
  · intro hall v hv
    have hb := hall v hv
    rw [Bool.not_eq_true', decide_eq_false_iff_not,
      minimum_charging_power_valid v (hval v hv), not_lt,
      WithTop.coe_le_coe] at hb
    exact hb
  · intro hall v hv
    rw [Bool.not_eq_true', decide_eq_false_iff_not,
      minimum_charging_power_valid v (hval v hv), not_lt,
      WithTop.coe_le_coe]
    exact hall v hv

/-- C4 witness: the concrete single-vehicle scenario (18 kWh needed over 4
hours, i.e. 4.5 kW ≤ 30 kW rated). -/
theorem c4_is_feasible_iff_witness :
    (sC1.is_feasible = true ↔
      ∀ v ∈ sC1.vehicles,
        v.energy_needed / (v.hours_available : ℚ) ≤ v.charging_power_max) ∧
    (∀ q : ℚ,
      (Scenario.mk sC1.vehicles sC1.price_profile q sC1.time_horizon).is_feasible
        = sC1.is_feasible) :=
  c4_is_feasible_iff sC1 (of_decide_eq_true (by with_unfolding_all rfl))

/-- C5: on the all-zero decision vector the evaluator returns zero cost,
zero peak power, zero SoC violation (when every initial SoC is in [0,1]),
zero power violation, and dissatisfaction `Σ max(0, target − initial)`.
The horizon must be at least one hour and the site cap positive, as
guaranteed by scenario validation (numpy's `max` raises on an empty
vector otherwise). -/
theorem c5_zero_decision (s : Scenario) (dt : ℚ)
    (hT : 0 < s.time_horizon) (hsite : 0 < s.site_max_power)
    (hsoc : ∀ v ∈ s.vehicles, 0 ≤ v.soc_initial ∧ v.soc_initial ≤ 1) :
    evaluate s dt (fun _ _ => 0) =
      ⟨0,
       ∑ i ∈ Finset.range s.vehicles.length,
         max 0 ((s.vehicleAt i).soc_target - (s.vehicleAt i).soc_initial),
       0, 0, 0⟩ := by
  have hm : ∀ i t, masked s (fun _ _ => 0) i t = 0 := by
    intro i t; simp [masked]
  have htot : ∀ t, totalPower s (masked s (fun _ _ => 0)) t = 0 := by
    intro t; simp [totalPower, hm]
  have hsocAt : ∀ i t,
      socAt dt (s.vehicleAt i) (masked s (fun _ _ => 0) i) t
        = (s.vehicleAt i).soc_initial := by
    intro i t; simp [socAt, hm]
  rw [evaluate, evalMasked]
  congr 1
  · rw [cost]
    exact Finset.sum_eq_zero fun t _ => by rw [htot]; ring
  · rw [dissatisfaction]
    exact Finset.sum_congr rfl fun i _ => by rw [finalSoc, hsocAt]
  · rw [peakPower]
    have : ((List.range s.time_horizon).map fun t =>
        |totalPower s (masked s (fun _ _ => 0)) t|)
        = List.replicate s.time_horizon 0 :=
      calc ((List.range s.time_horizon).map fun t =>
              |totalPower s (masked s (fun _ _ => 0)) t|)
          = (List.range s.time_horizon).map fun _ => (0:ℚ) :=
            List.map_congr_left fun t _ => by rw [htot, abs_zero]
        _ = List.replicate (List.range s.time_horizon).length 0 :=
            List.map_const' _ 0
        _ = List.replicate s.time_horizon 0 := by rw [List.length_range]
    rw [this, npMax_replicate_zero]
  · rw [socViolation]
    have h1 : ∀ i ∈ Finset.range s.vehicles.length,
        (∑ t ∈ Finset.range s.time_horizon,
          max 0 (-(socAt dt (s.vehicleAt i) (masked s (fun _ _ => 0) i) t))) = 0 := by
      intro i hi
      refine Finset.sum_eq_zero fun t _ => ?_
      rw [hsocAt, max_eq_left]
      rw [neg_nonpos]
      exact (hsoc _ (vehicleAt_mem s i (Finset.mem_range.mp hi))).1
    have h2 : ∀ i ∈ Finset.range s.vehicles.length,
        (∑ t ∈ Finset.range s.time_horizon,
          max 0 (socAt dt (s.vehicleAt i) (masked s (fun _ _ => 0) i) t - 1)) = 0 := by
      intro i hi
      refine Finset.sum_eq_zero fun t _ => ?_
      rw [hsocAt, max_eq_left]
      rw [sub_nonpos]
      exact (hsoc _ (vehicleAt_mem s i (Finset.mem_range.mp hi))).2
    rw [Finset.sum_eq_zero h1, Finset.sum_eq_zero h2, add_zero]
  · rw [powerViolation]
    have : ((List.range s.time_horizon).map fun t =>
        max 0 (|totalPower s (masked s (fun _ _ => 0)) t| - s.site_max_power))
        = List.replicate s.time_horizon 0 :=
      calc ((List.range s.time_horizon).map fun t =>
              max 0 (|totalPower s (masked s (fun _ _ => 0)) t| - s.site_max_power))
          = (List.range s.time_horizon).map fun _ => (0:ℚ) :=
            List.map_congr_left fun t _ => by
              rw [htot, abs_zero, max_eq_left (by linarith)]
        _ = List.replicate (List.range s.time_horizon).length 0 :=
            List.map_const' _ 0
        _ = List.replicate s.time_horizon 0 := by rw [List.length_range]
    rw [this, npMax_replicate_zero]

/-- C5 witness: the theorem applied to the concrete scenario. -/
theorem c5_zero_decision_witness :
    evaluate sC1 1 (fun _ _ => 0) =
      ⟨0,
       ∑ i ∈ Finset.range sC1.vehicles.length,
         max 0 ((sC1.vehicleAt i).soc_target - (sC1.vehicleAt i).soc_initial),
       0, 0, 0⟩ :=
  c5_zero_decision sC1 1 (by decide)
    (of_decide_eq_true (by with_unfolding_all rfl))
    (of_decide_eq_true (by with_unfolding_all rfl))

/-- C6: raising a single vehicle's power at an hour when it is available,
holding every other entry fixed, never decreases that vehicle's SoC at its
horizon-clipped departure index, and hence never increases the
dissatisfaction objective. -/
theorem c6_power_monotone (s : Scenario) (dt : ℚ) (x x' : ℕ → ℕ → ℚ)
    (i h : ℕ) (hdt : 0 ≤ dt)
    (hcap : 0 < (s.vehicleAt i).battery_capacity)
    (havail : (s.vehicleAt i).available_at (h : ℤ) = true)
    (hinc : x i h ≤ x' i h)
    (hagree : ∀ j t, ¬(j = i ∧ t = h) → x' j t = x j t) :
    finalSoc dt s.time_horizon (s.vehicleAt i) (masked s x i) ≤
      finalSoc dt s.time_horizon (s.vehicleAt i) (masked s x' i) ∧
    dissatisfaction s dt (masked s x') ≤ dissatisfaction s dt (masked s x) := by
  have hrow : ∀ u, masked s x i u ≤ masked s x' i u := by
    intro u
    by_cases hu : u = h
    · subst hu
      exact mul_le_mul_of_nonneg_right hinc (maskBit_nonneg _ _)
    · rw [masked, masked, hagree i u fun hc => hu hc.2]
  have hsocle : ∀ t,
      socAt dt (s.vehicleAt i) (masked s x i) t ≤
        socAt dt (s.vehicleAt i) (masked s x' i) t := by
    intro t
    rw [socAt, socAt]
    refine add_le_add_left (Finset.sum_le_sum fun u _ => ?_) _
    exact (div_le_div_iff_of_pos_right hcap).mpr
      (mul_le_mul_of_nonneg_right (hrow u) hdt)
  refine ⟨hsocle _, ?_⟩
  rw [dissatisfaction, dissatisfaction]
  refine Finset.sum_le_sum fun j _ => ?_
  by_cases hj : j = i
  · subst hj
    exact max_le_max le_rfl (sub_le_sub_left (hsocle _) _)
  · have hjeq : ∀ u, masked s x' j u = masked s x j u := by
      intro u
      rw [masked, masked, hagree j u fun hc => hj hc.1]
    have : finalSoc dt s.time_horizon (s.vehicleAt j) (masked s x' j)
        = finalSoc dt s.time_horizon (s.vehicleAt j) (masked s x j) := by
      rw [finalSoc, finalSoc, socAt, socAt]
      exact congrArg _ (Finset.sum_congr rfl fun u _ => by rw [hjeq])
    rw [this]

/-- C6 witness: the theorem applied to the concrete scenario, raising
vehicle 0's power at hour 6 from 0 to 5 kW. -/
theorem c6_power_monotone_witness :
    finalSoc 1 sC1.time_horizon (sC1.vehicleAt 0) (masked sC1 (fun _ _ => 0) 0) ≤
      finalSoc 1 sC1.time_horizon (sC1.vehicleAt 0)
        (masked sC1 (fun j t => if j = 0 ∧ t = 6 then 5 else 0) 0) ∧
    dissatisfaction sC1 1 (masked sC1 (fun j t => if j = 0 ∧ t = 6 then 5 else 0)) ≤
      dissatisfaction sC1 1 (masked sC1 (fun _ _ => 0)) :=
  c6_power_monotone sC1 1 (fun _ _ => 0)
    (fun j t => if j = 0 ∧ t = 6 then 5 else 0) 0 6
    (of_decide_eq_true (by with_unfolding_all rfl))
    (of_decide_eq_true (by with_unfolding_all rfl))
    (by with_unfolding_all rfl)
    (of_decide_eq_true (by with_unfolding_all rfl))
    (fun j t hjt => if_neg hjt)

/-- C7: at a (vehicle, hour) cell where the vehicle is unavailable, the
masked power is exactly 0, and every evaluator output is unchanged however
the raw decision value at that cell is changed. -/
theorem c7_mask_forces_zero (s : Scenario) (dt : ℚ) (x x' : ℕ → ℕ → ℚ)
    (i h : ℕ)
    (hmask : (s.vehicleAt i).available_at (h : ℤ) = false)
    (hagree : ∀ j t, ¬(j = i ∧ t = h) → x' j t = x j t) :
    masked s x' i h = 0 ∧ evaluate s dt x' = evaluate s dt x := by
  have hbit : maskBit (s.vehicleAt i) h = 0 := by simp [maskBit, hmask]
  have hM : masked s x' = masked s x := by
    funext j t
    by_cases hjt : j = i ∧ t = h
    · obtain ⟨rfl, rfl⟩ := hjt
      rw [masked, masked, hbit, mul_zero, mul_zero]
    · rw [masked, masked, hagree j t hjt]
  exact ⟨by rw [masked, hbit, mul_zero], by rw [evaluate, evaluate, hM]⟩

/-- C7 witness: the concrete vehicle is away at hour 3; writing 42 kW into
that cell leaves the masked power 0 and every output unchanged. -/
theorem c7_mask_forces_zero_witness :
    masked sC1 (fun j t => if j = 0 ∧ t = 3 then 42 else 0) 0 3 = 0 ∧
    evaluate sC1 1 (fun j t => if j = 0 ∧ t = 3 then 42 else 0) =
      evaluate sC1 1 (fun _ _ => 0) :=
  c7_mask_forces_zero sC1 1 (fun _ _ => 0)
    (fun j t => if j = 0 ∧ t = 3 then 42 else 0) 0 3
    (by with_unfolding_all rfl)
    (fun j t hjt => if_neg hjt)

/-- C10 witness: the theorem applied to the concrete 24-hour-stay vehicle. -/
theorem c10_hours_available_positive_witness :
    1 ≤ vC10.hours_available ∧
    (vC10.departure_time = vC10.arrival_time →
      vC10.hours_available = 24 ∧ ∀ hour : ℤ, vC10.available_at hour = true) ∧
    vC10.minimum_charging_power =
      ((vC10.energy_needed / (vC10.hours_available : ℚ) : ℚ) : WithTop ℚ) :=
  c10_hours_available_positive vC10 (of_decide_eq_true (by with_unfolding_all rfl))

/-! The Pareto metrics engine `MetricsCalculator`
(`src/services/metrics_calculator.py`).  A front is a list of 3-objective
points (cost, dissatisfaction, peak power): rational wherever the source
only sums and compares, real where it takes square roots (numpy's
`linalg.norm` and `std`).  The hypervolume indicator itself is pymoo
library code, not part of this repository, so `calculate_all` is
parametric in it. -/

/-- A point of the 3-objective space. -/
abbrev Pt := ℚ × ℚ × ℚ

/-- `np.min` over a vector (nonempty in every use; `[]` is a placeholder
as for `npMax`). -/
def npMin : List ℚ → ℚ
  | [] => 0
  | a :: l => l.foldl min a

/-- Column maxima `np.max(front, axis=0)`. -/
def colMax (front : List Pt) : Pt :=
  (npMax (front.map fun p => p.1), npMax (front.map fun p => p.2.1),
   npMax (front.map fun p => p.2.2))

/-- Column minima `np.min(front, axis=0)`. -/
def colMin (front : List Pt) : Pt :=
  (npMin (front.map fun p => p.1), npMin (front.map fun p => p.2.1),
   npMin (front.map fun p => p.2.2))

/-- Column means `np.mean(front, axis=0)`. -/
def colMean (front : List Pt) : Pt :=
  ((front.map fun p => p.1).sum / front.length,
   (front.map fun p => p.2.1).sum / front.length,
   (front.map fun p => p.2.2).sum / front.length)

/-- `MetricsCalculator._compute_reference_point`: the per-objective column
maxima of the given front, scaled by `(1 + margin)`. -/
def computeReferencePoint (margin : ℚ) (front : List Pt) : Pt :=
  ((colMax front).1 * (1 + margin), (colMax front).2.1 * (1 + margin),
   (colMax front).2.2 * (1 + margin))

/-- `MetricsCalculator._normalize`: per column `(x - min) / (max - min)`,
a zero range being replaced by 1 to avoid division by zero. -/
def normalizeFront (front : List Pt) : List Pt :=
  let lo := colMin front
  let hi := colMax front
  let r1 := if hi.1 - lo.1 = 0 then 1 else hi.1 - lo.1
  let r2 := if hi.2.1 - lo.2.1 = 0 then 1 else hi.2.1 - lo.2.1
  let r3 := if hi.2.2 - lo.2.2 = 0 then 1 else hi.2.2 - lo.2.2
  front.map fun p =>
    ((p.1 - lo.1) / r1, (p.2.1 - lo.2.1) / r2, (p.2.2 - lo.2.2) / r3)

/-- The reference point `calculate_all` uses when none was supplied:
`np.ones(3)` when normalization is enabled, else
`_compute_reference_point` on the raw front. -/
def derivedRefPoint (normalize : Bool) (margin : ℚ) (front : List Pt) : Pt :=
  if normalize then (1, 1, 1) else computeReferencePoint margin front

/-- Pareto domination for minimization: at most the other point in every
objective, strictly below in at least one. -/
def dominates (p q : Pt) : Prop :=
  p.1 ≤ q.1 ∧ p.2.1 ≤ q.2.1 ∧ p.2.2 ≤ q.2.2 ∧
  (p.1 < q.1 ∨ p.2.1 < q.2.1 ∨ p.2.2 < q.2.2)

instance (p q : Pt) : Decidable (dominates p q) := by
  unfold dominates; infer_instance

/-- `np.linalg.norm` of the difference of two points. -/
noncomputable def euclid (p q : Pt) : ℝ :=
  Real.sqrt (((p.1 - q.1) ^ 2 + (p.2.1 - q.2.1) ^ 2 + (p.2.2 - q.2.2) ^ 2 : ℚ) : ℝ)

/-- `np.min` over a vector of reals. -/
noncomputable def listMinR : List ℝ → ℝ
  | [] => 0
  | a :: l => l.foldl min a

/-- `np.mean` over a vector of reals. -/
noncomputable def meanR (l : List ℝ) : ℝ := l.sum / l.length

/-- Population standard deviation `sqrt(mean((x - mean(x))^2))`: numpy's
`std` and the explicit formula in `_spacing`. -/
noncomputable def stddevR (l : List ℝ) : ℝ :=
  Real.sqrt (meanR (l.map fun x => (x - meanR l) ^ 2))

/-- The nearest-neighbour distance vector of `_spacing`: for each row, the
minimum Euclidean distance to the front with that row deleted
(`np.delete`). -/
noncomputable def nnDistances (front : List Pt) : List ℝ :=
  (List.range front.length).map fun i =>
    listMinR ((front.eraseIdx i).map (euclid (front.getD i (0, 0, 0))))

/-- `MetricsCalculator._spacing`: 0 for a front of size ≤ 1, else the
standard deviation of the nearest-neighbour distances. -/
noncomputable def spacing (front : List Pt) : ℝ :=
  if front.length ≤ 1 then 0 else stddevR (nnDistances front)

/-- Column standard deviation `np.std(front[:, j])`. -/
noncomputable def colStdDev (l : List ℚ) : ℝ :=
  stddevR (l.map fun q => (q : ℝ))

/-- The non-null metrics dictionary built by `calculate_all`. -/
structure MetricsSummary where
  hypervolume : ℝ
  reference_point : Pt
  spacing : ℝ
  n_solutions : ℕ
  best_objectives : Pt
  worst_objectives : Pt
  mean_objectives : Pt
  std_objectives : ℝ × ℝ × ℝ

/-- `MetricsCalculator.calculate_all`, parametric in the external
hypervolume indicator `hv` (pymoo's `HV`, third-party code): an empty
front yields the empty result `{}` (here `none`), a nonempty front yields
every metric.  Spacing and hypervolume are computed on the normalized
front when normalization is enabled; best/worst/mean/std on the raw
front, as in the source. -/
noncomputable def calculate_all (hv : Pt → List Pt → ℝ) (rp : Option Pt)
    (margin : ℚ) (normalize : Bool) (front : List Pt) :
    Option MetricsSummary :=
  if front.length = 0 then none
  else
    let pf := if normalize then normalizeFront front else front
    let ref := match rp with
      | none => derivedRefPoint normalize margin front
      | some r => r
    some ⟨hv ref pf, ref, spacing pf, front.length, colMin front,
      colMax front, colMean front,
      (colStdDev (front.map fun p => p.1),
       colStdDev (front.map fun p => p.2.1),
       colStdDev (front.map fun p => p.2.2))⟩

/-- Two-point front exercising the reference-point logic. -/
def frC2 : List Pt := [(0, 0, 0), (1, 1, 1)]

/-- The seed of a max fold bounds the fold from below. -/
theorem le_foldl_max (l : List ℚ) (a : ℚ) : a ≤ l.foldl max a := by
  induction l generalizing a with
  | nil => exact le_rfl
  | cons b t ih => exact le_trans (le_max_left a b) (ih (max a b))

/-- Every member of a max fold's list bounds the fold from below. -/
theorem mem_le_foldl_max (l : List ℚ) (a x : ℚ) (hx : x ∈ l) :
    x ≤ l.foldl max a := by
  induction l generalizing a with
  | nil => cases hx
  | cons b t ih =>
    rcases List.mem_cons.mp hx with rfl | hxt
    · exact le_trans (le_max_right a x) (le_foldl_max t _)
    · exact ih _ hxt

/-- `np.max` bounds every entry of its vector from above. -/
theorem le_npMax {l : List ℚ} {x : ℚ} (hx : x ∈ l) : x ≤ npMax l := by
  cases l with
  | nil => cases hx
  | cons a t =>
    simp only [npMax]
    rcases List.mem_cons.mp hx with rfl | hxt
    · exact le_foldl_max t x
    · exact mem_le_foldl_max t a x hxt

/-- The seed of a min fold bounds the fold from above. -/
theorem foldl_min_le (l : List ℚ) (a : ℚ) : l.foldl min a ≤ a := by
  induction l generalizing a with
  | nil => exact le_rfl
  | cons b t ih => exact le_trans (ih (min a b)) (min_le_left a b)

/-- Every member of a min fold's list bounds the fold from above. -/
theorem foldl_min_le_mem (l : List ℚ) (a x : ℚ) (hx : x ∈ l) :
    l.foldl min a ≤ x := by
  induction l generalizing a with
  | nil => cases hx
  | cons b t ih =>
    rcases List.mem_cons.mp hx with rfl | hxt
    · exact le_trans (foldl_min_le t _) (min_le_right a x)
    · exact ih _ hxt

/-- `np.min` bounds every entry of its vector from below. -/
theorem npMin_le {l : List ℚ} {x : ℚ} (hx : x ∈ l) : npMin l ≤ x := by
  cases l with
  | nil => cases hx
  | cons a t =>
    simp only [npMin]
    rcases List.mem_cons.mp hx with rfl | hxt
    · exact foldl_min_le t x
    · exact foldl_min_le_mem t a x hxt

/-- A normalized coordinate never exceeds 1. -/
theorem norm_component_le_one {x lo hi : ℚ} (h1 : lo ≤ x) (h2 : x ≤ hi) :
    (x - lo) / (if hi - lo = 0 then 1 else hi - lo) ≤ 1 := by
  split_ifs with h
  · rw [div_one]; linarith
  · have hpos : 0 < hi - lo := lt_of_le_of_ne (by linarith) (Ne.symm h)
    rw [div_le_one hpos]; linarith

/-- C2 counterexample: with normalization enabled (the default) and no
reference point supplied, the reference point `calculate_all` derives on
this front is the all-ones vector, not the column maxima of the normalized
front times `(1 + 0.1)`; moreover the normalized front member `(0,0,0)` is
at most that reference point in all three objectives with strict
inequality, so the derived reference point is in fact dominated by a front
member. -/
theorem c2_reference_point_counterexample :
    derivedRefPoint true (1/10) frC2 = (1, 1, 1) ∧
    computeReferencePoint (1/10) (normalizeFront frC2)
      = (11/10, 11/10, 11/10) ∧
    derivedRefPoint true (1/10) frC2 ≠ (11/10, 11/10, 11/10) ∧
    (0, 0, 0) ∈ normalizeFront frC2 ∧
    dominates (0, 0, 0) (derivedRefPoint true (1/10) frC2) :=
  of_decide_eq_true (by with_unfolding_all rfl)

/-- C2 (amended): when no reference point is supplied, the derived
hypervolume reference point is the all-ones vector when normalization is
enabled (the default), and `column_max × (1 + margin)` on the raw front
when it is disabled; with normalization enabled the reference point is
componentwise ≥ every member of the normalized front, i.e. no front member
ever exceeds it in any objective. -/
theorem c2_reference_point_amended :
    (∀ margin : ℚ, ∀ front : List Pt,
      derivedRefPoint true margin front = (1, 1, 1)) ∧
    (∀ margin : ℚ, ∀ front : List Pt,
      derivedRefPoint false margin front = computeReferencePoint margin front) ∧
    (∀ front : List Pt, ∀ p ∈ normalizeFront front,
      p.1 ≤ 1 ∧ p.2.1 ≤ 1 ∧ p.2.2 ≤ 1) := by
  refine ⟨fun _ _ => rfl, fun _ _ => rfl, fun front p hp => ?_⟩
  simp only [normalizeFront, List.mem_map] at hp
  obtain ⟨q, hq, rfl⟩ := hp
  refine ⟨norm_component_le_one ?_ ?_, norm_component_le_one ?_ ?_,
    norm_component_le_one ?_ ?_⟩
  · exact npMin_le (List.mem_map_of_mem _ hq)
  · exact le_npMax (List.mem_map_of_mem _ hq)
  · exact npMin_le (List.mem_map_of_mem _ hq)
  · exact le_npMax (List.mem_map_of_mem _ hq)
  · exact npMin_le (List.mem_map_of_mem _ hq)
  · exact le_npMax (List.mem_map_of_mem _ hq)

/-- C2 witness: the normalized member `(0,0,0)` of the two-point front is
within the derived all-ones reference point in every objective. -/
theorem c2_reference_point_amended_witness :
    (0, 0, 0) ∈ normalizeFront frC2 ∧
    (((0:ℚ), (0:ℚ), (0:ℚ)).1 ≤ 1 ∧ ((0:ℚ), (0:ℚ), (0:ℚ)).2.1 ≤ 1 ∧
      ((0:ℚ), (0:ℚ), (0:ℚ)).2.2 ≤ 1) :=
  ⟨of_decide_eq_true (by with_unfolding_all rfl),
   c2_reference_point_amended.2.2 frC2 (0, 0, 0)
     (of_decide_eq_true (by with_unfolding_all rfl))⟩

/-- C9: `calculate_all` on an empty front returns the empty result rather
than raising; on a nonempty front it returns the hypervolume, the spacing
(computed in normalized objective space when normalization is enabled),
the solution count and the per-objective best/worst/mean/std; spacing is 0
by convention for a front of size ≤ 1 and otherwise the standard deviation
of each member's Euclidean nearest-neighbour distance. -/
theorem c9_calculate_all_total (hv : Pt → List Pt → ℝ) (rp : Option Pt)
    (margin : ℚ) (normalize : Bool) :
    calculate_all hv rp margin normalize [] = none ∧
    (∀ front : List Pt, front ≠ [] → ∃ r : MetricsSummary,
      calculate_all hv rp margin normalize front = some r ∧
      r.spacing = spacing (if normalize then normalizeFront front else front) ∧
      r.n_solutions = front.length ∧
      r.best_objectives = colMin front ∧
      r.worst_objectives = colMax front ∧
      r.mean_objectives = colMean front ∧
      r.std_objectives = (colStdDev (front.map fun p => p.1),
        colStdDev (front.map fun p => p.2.1),
        colStdDev (front.map fun p => p.2.2)) ∧
      r.hypervolume = hv r.reference_point
        (if normalize then normalizeFront front else front)) ∧
    (∀ front : List Pt, front.length ≤ 1 → spacing front = 0) ∧
    (∀ front : List Pt, 2 ≤ front.length →
      spacing front = stddevR (nnDistances front)) := by
  refine ⟨rfl, fun front hne => ?_, fun front h1 => ?_, fun front h2 => ?_⟩
  · rw [calculate_all.eq_def, if_neg (fun h => hne (List.length_eq_zero.mp h))]
    exact ⟨_, rfl, rfl, rfl, rfl, rfl, rfl, rfl, rfl⟩
  · rw [spacing, if_pos h1]
  · rw [spacing, if_neg (by omega)]

/-- C9 witness: the theorem's nonempty branch applied to the concrete
two-point front with a trivial hypervolume indicator. -/
theorem c9_calculate_all_total_witness :
    ∃ r : MetricsSummary,
      calculate_all (fun _ _ => (0:ℝ)) none (1/10) true frC2 = some r ∧
      r.spacing = spacing (if true then normalizeFront frC2 else frC2) ∧
      r.n_solutions = frC2.length ∧
      r.best_objectives = colMin frC2 ∧
      r.worst_objectives = colMax frC2 ∧
      r.mean_objectives = colMean frC2 ∧
      r.std_objectives = (colStdDev (frC2.map fun p => p.1),
        colStdDev (frC2.map fun p => p.2.1),
        colStdDev (frC2.map fun p => p.2.2)) ∧
      r.hypervolume = (fun _ _ => (0:ℝ)) r.reference_point
        (if true then normalizeFront frC2 else frC2) :=
  (c9_calculate_all_total (fun _ _ => (0:ℝ)) none (1/10) true).2.1 frC2
    (List.cons_ne_nil _ _)

end EVOpt
